import Mathlib

/-!
# skbn: the S3 client (`pkg/skbn/s3.go`)

A shallow embedding of the S3 client of skbn: path interpretation
(`strings.Split`, `validateS3Path`, `filepath.Join`), the session factory
`GetClientToS3` and the three retry-wrapped operations
`GetListOfFilesFromS3`, `DownloadFromS3` and `UploadToS3`.

Go strings are modelled as lists of characters.  The remote service is a
parameter (`S3Env`): it gives the outcome of every remote call as a function
of the attempt in which the call is made, which is the fault injector the
retry loops run against.  Each operation returns its Go result together with
the trace of remote calls and sleeps it performed; the downloader, which
dereferences the content length of the response, either returns or panics.
The retry loops carry a
fuel argument; the public operations supply enough fuel for the loop to end
by itself, and every theorem about an operation exhibits the result returned.
-/

namespace Skbn

/-- A Go string, as the list of its characters. -/
abbrev GoString := List Char

/-- A byte of object content. -/
abbrev Byte := Fin 256

/-- A Go `error` value, identified by its message. -/
structure Error where
  msg : GoString
deriving DecidableEq

/-! ## The Go standard library functions the client calls (Unix semantics) -/

namespace strings

/-- Go `strings.Split(s, sep)` for a one-character separator: all substrings
of `s` between occurrences of `sep`; never the empty slice (`Split("", "/")`
is `[""]`). -/
def Split (s : GoString) (sep : Char) : List GoString :=
  match s with
  | [] => [[]]
  | c :: cs =>
    if c = sep then [] :: Split cs sep
    else
      match Split cs sep with
      | [] => [[c]]
      | h :: t => (c :: h) :: t

/-- Go `strings.Join(elems, sep)` for a one-character separator. -/
def Join (elems : List GoString) (sep : Char) : GoString :=
  match elems with
  | [] => []
  | [e] => e
  | e :: es => e ++ sep :: Join es sep

/-- Go `strings.Replace(s, old, new, 1)`: `s` with the first (leftmost)
instance of `old` replaced by `new`; `s` itself when `old` does not occur.
An empty `old` matches at the beginning of the string. -/
def ReplaceFirst (s old new : GoString) : GoString :=
  if old.isPrefixOf s then new ++ s.drop old.length
  else
    match s with
    | [] => []
    | c :: cs => c :: ReplaceFirst cs old new

end strings

namespace filepath

/-- One step of `Clean` over the path elements: `out` is the stack of the
elements kept so far, the last one first. Empty and `.` elements are dropped;
a `..` element removes the element before it when there is one that is not
itself `..`, is dropped at the root of a rooted path, and is kept otherwise. -/
def cleanStep (rooted : Bool) (out : List GoString) (seg : GoString) : List GoString :=
  if seg = [] then out
  else if seg = ['.'] then out
  else if seg = ['.', '.'] then
    match out with
    | [] => if rooted then [] else [seg]
    | top :: rest => if top = ['.', '.'] then seg :: out else rest
  else seg :: out

/-- Go `filepath.Clean(path)` on a Unix system: the shortest path name
equivalent to `path` by purely lexical processing. -/
def Clean (path : GoString) : GoString :=
  if path = [] then ['.']
  else
    let rooted : Bool := path.head? = some '/'
    let out := (strings.Split path '/').foldl (cleanStep rooted) []
    let body := strings.Join out.reverse '/'
    let res := if rooted then '/' :: body else body
    if res = [] then ['.'] else res

/-- Go `filepath.Join(elem...)` on a Unix system: the elements from the first
non-empty one on, joined with `/` and cleaned; the empty string when every
element is empty. -/
def Join (elem : List GoString) : GoString :=
  match elem with
  | [] => []
  | e :: es => if e = [] then Join es else Clean (strings.Join (e :: es) '/')

/-- The part of `path` after its last `/` (all of `path` when it has none):
the file name `filepath.Split` returns. -/
def lastElem (path : GoString) : GoString :=
  match path with
  | [] => []
  | c :: cs => if '/' ∈ cs then lastElem cs else if c = '/' then cs else c :: cs

/-- Go `filepath.Split(path)` on a Unix system: the path split immediately
after its final `/` into a directory and a file name. -/
def Split (path : GoString) : GoString × GoString :=
  let file := lastElem path
  (path.take (path.length - file.length), file)

end filepath

/-! ## The remote service and what an operation is observed to do -/

/-- An established session (`*session.Session`), an opaque handle. -/
structure Session where
  id : Nat
deriving DecidableEq

/-- The body of a `GetObject` response, an `io.Reader`: `pending` are the
chunks the transport delivers, one per `Read` call at most. -/
structure Reader where
  pending : List (List Byte)
deriving DecidableEq

/-- Go `io.EOF`. -/
def EOF : Error := ⟨"EOF".toList⟩

/-- A call `r.Read(p)`: up to `len(p)` bytes of the next chunk are copied to
the front of `p`, the rest of `p` is left as it was. Returns the buffer after
the call, the number of bytes read, the error and the reader that remains. -/
def Reader.Read (r : Reader) (p : List Byte) : List Byte × Nat × Option Error × Reader :=
  match r.pending with
  | [] => (p, 0, some EOF, r)
  | c :: rest =>
    let n := min p.length c.length
    (c.take n ++ p.drop n, n, none, ⟨if c.drop n = [] then rest else c.drop n :: rest⟩)

/-- The fields of `s3.ListObjectsInput` the client sets. -/
structure ListObjectsInput where
  Bucket : GoString
  Prefix : GoString
deriving DecidableEq

/-- An entry of `ListObjectsOutput.Contents`; the key of a listed object is
taken to be present. -/
structure Object where
  Key : GoString
deriving DecidableEq

/-- The field of `s3.ListObjectsOutput` the client reads. -/
structure ListObjectsOutput where
  Contents : List Object
deriving DecidableEq

/-- The fields of `s3.GetObjectInput` the client sets. -/
structure GetObjectInput where
  Bucket : GoString
  Key : GoString
deriving DecidableEq

/-- The fields of `s3.GetObjectOutput` the client reads. `ContentLength` is a
`*int64`: `none` is the nil pointer of a response that carries no content
length. -/
structure GetObjectOutput where
  ContentLength : Option Int
  Body : Reader
deriving DecidableEq

/-- A Go run-time panic. -/
inductive Panic where
  | nilDereference
  | makesliceLenOutOfRange
deriving DecidableEq

/-- How a call of a Go function ends: it returns its results, or it panics
and returns nothing. -/
inductive Outcome (α : Type) where
  | returned (result : α)
  | panicked (p : Panic)
deriving DecidableEq

/-- The fields of `s3.PutObjectInput` the client sets. -/
structure PutObjectInput where
  Bucket : GoString
  Key : GoString
  Body : List Byte
deriving DecidableEq

/-- The remote side. Every function takes the number of the attempt (1, 2,
3: the value of the loop variable `attempt` when the call is made) and the
arguments of the call, and gives the call's outcome. An operation makes at
most one call of each kind per attempt, so for the three object operations
the attempt number is the number of the invocation. -/
structure S3Env where
  NewSession : Nat → GoString → Except Error Session
  ListBuckets : Nat → Session → Option Error
  ListObjects : Nat → Session → ListObjectsInput → Except Error ListObjectsOutput
  GetObject : Nat → Session → GetObjectInput → Except Error GetObjectOutput
  PutObject : Nat → Session → PutObjectInput → Option Error

/-- What an operation does that can be seen from outside. -/
inductive Event where
  | NewSession (region : GoString)
  | ListBuckets (s : Session)
  | ListObjects (s : Session) (input : ListObjectsInput)
  | GetObject (s : Session) (input : GetObjectInput)
  | PutObject (s : Session) (input : PutObjectInput)
  | Sleep (seconds : Nat)
deriving DecidableEq

/-- The events of one operation, the earliest first. -/
abbrev Trace := List Event

/-- Whether the event is a call of a remote object operation (`ListObjects`,
`GetObject` or `PutObject`). -/
def Event.isRemoteCall : Event → Bool
  | .ListObjects _ _ => true
  | .GetObject _ _ => true
  | .PutObject _ _ => true
  | _ => false

/-- Whether the event is a session construction. -/
def Event.isNewSession : Event → Bool
  | .NewSession _ => true
  | _ => false

/-- Whether the event is a `ListBuckets` probe. -/
def Event.isListBuckets : Event → Bool
  | .ListBuckets _ => true
  | _ => false

/-- The number of remote object calls in a trace. -/
def remoteCalls (tr : Trace) : Nat := tr.countP Event.isRemoteCall

/-- The number of session constructions in a trace. -/
def constructions (tr : Trace) : Nat := tr.countP Event.isNewSession

/-- The number of `ListBuckets` probes in a trace. -/
def probes (tr : Trace) : Nat := tr.countP Event.isListBuckets

/-- The number of one-second sleeps in a trace. -/
def oneSecondSleeps (tr : Trace) : Nat := tr.count (Event.Sleep 1)

/-! ## The client -/

/-- The source's `validateS3Path`: no error when the split path has at least
one element, `illegal path: ...` otherwise. -/
def validateS3Path (pathSplit : List GoString) : Option Error :=
  if pathSplit.length ≥ 1 then none
  else some ⟨"illegal path: ".toList ++ filepath.Join pathSplit⟩

/-- The source's `getNewSession` at the attempt `attempt`: a session for the
fixed region. -/
def getNewSession (env : S3Env) (attempt : Nat) : Except Error Session :=
  env.NewSession attempt "eu-central-1".toList

/-- The retry loop of `GetClientToS3`: `attempt` is the loop variable, `tr`
the trace so far. The result is the returned pair `(session, error)`. -/
def clientLoop (env : S3Env) (attempts : Nat) :
    Nat → Nat → Trace → Option ((Option Session × Option Error) × Trace)
  | 0, _, _ => none
  | fuel + 1, attempt, tr =>
    if attempt < attempts then
      let attempt := attempt + 1
      let tr := tr ++ [Event.NewSession "eu-central-1".toList]
      match getNewSession env attempt with
      | .error err =>
        if attempt = attempts then some ((none, some err), tr)
        else clientLoop env attempts fuel attempt (tr ++ [Event.Sleep 1])
      | .ok s =>
        let tr := tr ++ [Event.ListBuckets s]
        let err := env.ListBuckets attempt s
        if attempt = attempts ∧ err ≠ none then some ((none, err), tr)
        else if err = none then some ((some s, none), tr)
        else clientLoop env attempts fuel attempt (tr ++ [Event.Sleep 1])
    else some ((none, none), tr)

/-- The source's `GetClientToS3`: checks the connection to S3 and returns the
tested client. -/
def GetClientToS3 (env : S3Env) : Option ((Option Session × Option Error) × Trace) :=
  clientLoop env 3 4 0 []

/-- The retry loop of `GetListOfFilesFromS3`. The result is the returned pair
`(outLines, error)`; a nil slice is the empty list. -/
def listLoop (env : S3Env) (s : Session) (bucket pathToCopy : GoString) (attempts : Nat) :
    Nat → Nat → Trace → Option ((List GoString × Option Error) × Trace)
  | 0, _, _ => none
  | fuel + 1, attempt, tr =>
    if attempt < attempts then
      let attempt := attempt + 1
      let tr := tr ++ [Event.ListObjects s ⟨bucket, pathToCopy⟩]
      match env.ListObjects attempt s ⟨bucket, pathToCopy⟩ with
      | .error err =>
        if attempt = attempts then some (([], some err), tr)
        else listLoop env s bucket pathToCopy attempts fuel attempt (tr ++ [Event.Sleep 1])
      | .ok objectOutput =>
        let outLines := objectOutput.Contents.map
          (fun content => strings.ReplaceFirst content.Key pathToCopy [])
        some ((outLines, none), tr)
    else some (([], none), tr)

/-- The source's `GetListOfFilesFromS3`: gets the list of files in `path`
from S3 (recursive). -/
def GetListOfFilesFromS3 (env : S3Env) (s : Session) (path : GoString) :
    Option ((List GoString × Option Error) × Trace) :=
  let pSplit := strings.Split path '/'
  match validateS3Path pSplit with
  | some err => some (([], some err), [])
  | none =>
    let bucket := pSplit.headD []
    let pathToCopy := filepath.Join (pSplit.drop 1)
    listLoop env s bucket pathToCopy 3 4 0 []

/-- What `DownloadFromS3` does with a successful response (lines 110 to 112):
`make([]byte, int(*objectOutput.ContentLength))`, one `Body.Read(buffer)`
whose outcome is not looked at, and `return buffer, nil`. Dereferencing a nil
content length panics, and so does `make` with a negative length; memory is
not bounded here. -/
def readObject (objectOutput : GetObjectOutput) : Outcome (List Byte × Option Error) :=
  match objectOutput.ContentLength with
  | none => .panicked .nilDereference
  | some n =>
    if n < 0 then .panicked .makesliceLenOutOfRange
    else
      let buffer : List Byte := List.replicate n.toNat 0
      let buffer := (objectOutput.Body.Read buffer).1
      .returned (buffer, none)

/-- The retry loop of `DownloadFromS3`. The result is the returned pair
`(buffer, error)`, or a panic. -/
def downloadLoop (env : S3Env) (s : Session) (bucket s3Path : GoString) (attempts : Nat) :
    Nat → Nat → Trace → Option (Outcome (List Byte × Option Error) × Trace)
  | 0, _, _ => none
  | fuel + 1, attempt, tr =>
    if attempt < attempts then
      let attempt := attempt + 1
      let tr := tr ++ [Event.GetObject s ⟨bucket, s3Path⟩]
      match env.GetObject attempt s ⟨bucket, s3Path⟩ with
      | .error err =>
        if attempt = attempts then some (.returned ([], some err), tr)
        else downloadLoop env s bucket s3Path attempts fuel attempt (tr ++ [Event.Sleep 1])
      | .ok objectOutput => some (readObject objectOutput, tr)
    else some (.returned ([], none), tr)

/-- The source's `DownloadFromS3`: downloads a single file from S3. -/
def DownloadFromS3 (env : S3Env) (s : Session) (path : GoString) :
    Option (Outcome (List Byte × Option Error) × Trace) :=
  let pSplit := strings.Split path '/'
  match validateS3Path pSplit with
  | some err => some (.returned ([], some err), [])
  | none =>
    let bucket := pSplit.headD []
    let s3Path := filepath.Join (pSplit.drop 1)
    downloadLoop env s bucket s3Path 3 4 0 []

/-- The retry loop of `UploadToS3`. The result is the returned error. -/
def uploadLoop (env : S3Env) (s : Session) (bucket s3Path : GoString) (buffer : List Byte)
    (attempts : Nat) : Nat → Nat → Trace → Option (Option Error × Trace)
  | 0, _, _ => none
  | fuel + 1, attempt, tr =>
    if attempt < attempts then
      let attempt := attempt + 1
      let tr := tr ++ [Event.PutObject s ⟨bucket, s3Path, buffer⟩]
      let err := env.PutObject attempt s ⟨bucket, s3Path, buffer⟩
      if attempt = attempts ∧ err ≠ none then some (err, tr)
      else if err = none then some (none, tr)
      else uploadLoop env s bucket s3Path buffer attempts fuel attempt (tr ++ [Event.Sleep 1])
    else some (none, tr)

/-- The source's `UploadToS3`: uploads a single file to S3. -/
def UploadToS3 (env : S3Env) (s : Session) (toPath fromPath : GoString) (buffer : List Byte) :
    Option (Option Error × Trace) :=
  let pSplit := strings.Split toPath '/'
  match validateS3Path pSplit with
  | some err => some (some err, [])
  | none =>
    let pSplit := if pSplit.length = 1 then pSplit ++ [(filepath.Split fromPath).2] else pSplit
    let bucket := pSplit.headD []
    let s3Path := filepath.Join (pSplit.drop 1)
    uploadLoop env s bucket s3Path buffer 3 4 0 []

/-! ## Names for the requests an operation issues -/

/-- The bucket the three operations derive from a logical path: the first
element of the split path. -/
def bucketOf (path : GoString) : GoString := (strings.Split path '/').headD []

/-- The key the lister and the downloader derive from a logical path:
`filepath.Join` of the elements after the first. -/
def keyOf (path : GoString) : GoString := filepath.Join ((strings.Split path '/').drop 1)

/-- The key the uploader derives from its two paths. -/
def uploadKeyOf (toPath fromPath : GoString) : GoString :=
  let pSplit := strings.Split toPath '/'
  filepath.Join ((if pSplit.length = 1 then pSplit ++ [(filepath.Split fromPath).2]
    else pSplit).drop 1)

/-- The outcome of attempt `i` of the session factory: the session when the
construction and the probe both succeed, the error of the construction when
it fails, the error of the probe otherwise. -/
def attemptOutcome (env : S3Env) (i : Nat) : Except Error Session :=
  match getNewSession env i with
  | .error e => .error e
  | .ok s =>
    match env.ListBuckets i s with
    | some e => .error e
    | none => .ok s

/-- Whether the construction of attempt `i` succeeds. -/
def constructs (env : S3Env) (i : Nat) : Bool :=
  match getNewSession env i with
  | .error _ => false
  | .ok _ => true

/-- The number of attempts among `1 .. k` whose construction succeeds: the
attempts in which a probe is made. -/
def constructedUpTo (env : S3Env) (k : Nat) : Nat :=
  ((List.range' 1 k).filter (constructs env)).length

/-- A remote side that fails every call of the attempts `1 .. N` and serves
every later one; the error of attempt `i` has a message of `i` characters.
The object with key `chunked` has the body `1, 2, 3` and is delivered in two
chunks, every other object in one; the response for the key `nolength`
carries no content length. Among the failing attempts the session
construction fails in the even ones and the probe in the odd ones. -/
def flakyEnv (N : Nat) : S3Env where
  NewSession i _ := if i ≤ N ∧ i % 2 = 0 then .error ⟨List.replicate i 'c'⟩ else .ok ⟨i⟩
  ListBuckets i _ := if i ≤ N then some ⟨List.replicate i 'p'⟩ else none
  ListObjects i _ _ :=
    if i ≤ N then .error ⟨List.replicate i 'l'⟩
    else .ok ⟨[⟨"a/b/a/bfile".toList⟩, ⟨"a/c".toList⟩]⟩
  GetObject i _ input :=
    if i ≤ N then .error ⟨List.replicate i 'g'⟩
    else if input.Key = "chunked".toList then .ok ⟨some 3, ⟨[[1], [2, 3]]⟩⟩
    else if input.Key = "nolength".toList then .ok ⟨none, ⟨[[1, 2, 3]]⟩⟩
    else .ok ⟨some 3, ⟨[[1, 2, 3]]⟩⟩
  PutObject i _ _ := if i ≤ N then some ⟨List.replicate i 'u'⟩ else none

/-- The specification of the lister's stripping, in the words of the spec:
`r` is `k` with the first occurrence of `p` removed, that is `k` is `u ++ p ++ v`
with no occurrence of `p` starting before the end of `u` and `r` is `u ++ v`,
or `p` does not occur in `k` and `r` is `k`. -/
def FirstOccurrenceRemoved (p k r : GoString) : Prop :=
  (∃ u v, k = u ++ p ++ v ∧ r = u ++ v ∧ ∀ u2 v2, k = u2 ++ p ++ v2 → u.length ≤ u2.length) ∨
    ((¬ ∃ u v, k = u ++ p ++ v) ∧ r = k)

/-- A remote side whose every call fails with the same error `boom`, and a
bucket without objects when `ok` is set. -/
def uniformEnv (ok : Bool) : S3Env where
  NewSession _ _ := .error ⟨"boom".toList⟩
  ListBuckets _ _ := some ⟨"boom".toList⟩
  ListObjects _ _ _ := if ok then .ok ⟨[]⟩ else .error ⟨"boom".toList⟩
  GetObject _ _ _ := if ok then .ok ⟨some 0, ⟨[]⟩⟩ else .error ⟨"boom".toList⟩
  PutObject _ _ _ := if ok then none else some ⟨"boom".toList⟩

/-- A remote side whose every call fails: the third call of every operation
with the error `boom`, an earlier call with an error that names the
operation, the number of the call and the bucket. -/
def finalBoomEnv : S3Env where
  NewSession _ _ := .error ⟨"boom".toList⟩
  ListBuckets _ _ := some ⟨"boom".toList⟩
  ListObjects i _ input :=
    .error (if i = 3 then ⟨"boom".toList⟩
      else ⟨'l' :: (if i = 1 then '1' else '2') :: input.Bucket⟩)
  GetObject i _ input :=
    .error (if i = 3 then ⟨"boom".toList⟩
      else ⟨'g' :: (if i = 1 then '1' else '2') :: input.Bucket⟩)
  PutObject i _ input :=
    some (if i = 3 then ⟨"boom".toList⟩
      else ⟨'u' :: (if i = 1 then '1' else '2') :: input.Bucket⟩)

/-- An element of a path that `Clean` keeps as it is: not empty, not `.` and
not `..`. -/
def plainElem (seg : GoString) : Prop := seg ≠ [] ∧ seg ≠ ['.'] ∧ seg ≠ ['.', '.']

/-! ## Path interpretation -/

theorem Split_ne_nil (s : GoString) (sep : Char) : strings.Split s sep ≠ [] := by
  induction s with
  | nil => simp [strings.Split]
  | cons c cs ih =>
    rw [strings.Split]
    split
    · simp
    · split <;> simp

theorem Split_length_pos (s : GoString) (sep : Char) : 1 ≤ (strings.Split s sep).length := by
  have h := Split_ne_nil s sep
  cases hs : strings.Split s sep with
  | nil => exact absurd hs h
  | cons a t => simp

theorem validateS3Path_Split (path : GoString) :
    validateS3Path (strings.Split path '/') = none := by
  simp [validateS3Path, Split_length_pos]

theorem Split_of_not_mem (s : GoString) (sep : Char) (h : sep ∉ s) :
    strings.Split s sep = [s] := by
  induction s with
  | nil => simp [strings.Split]
  | cons c cs ih =>
    simp only [List.mem_cons, not_or] at h
    rw [strings.Split, if_neg (fun hc => h.1 hc.symm), ih h.2]

theorem Split_append_sep (b k : GoString) (sep : Char) (h : sep ∉ b) :
    strings.Split (b ++ sep :: k) sep = b :: strings.Split k sep := by
  induction b with
  | nil => simp [strings.Split]
  | cons c cs ih =>
    simp only [List.mem_cons, not_or] at h
    rw [List.cons_append, strings.Split, if_neg (fun hc => h.1 hc.symm), ih h.2]

theorem Join_Split (s : GoString) (sep : Char) :
    strings.Join (strings.Split s sep) sep = s := by
  induction s with
  | nil => simp [strings.Split, strings.Join]
  | cons c cs ih =>
    rw [strings.Split]
    split
    · next hc =>
      cases hs : strings.Split cs sep with
      | nil => exact absurd hs (Split_ne_nil cs sep)
      | cons a t =>
        rw [hs] at ih
        rw [strings.Join, ih, hc]
        · simp
        · simp
    · cases hs : strings.Split cs sep with
      | nil => exact absurd hs (Split_ne_nil cs sep)
      | cons a t =>
        rw [hs] at ih
        cases t with
        | nil =>
          simp only [strings.Join] at ih ⊢
          rw [ih]
        | cons b t2 =>
          simp only [strings.Join] at ih ⊢
          rw [← ih]
          simp

theorem ReplaceFirst_spec (p k : GoString) :
    FirstOccurrenceRemoved p k (strings.ReplaceFirst k p []) := by
  induction k with
  | nil =>
    rw [strings.ReplaceFirst]
    by_cases hp : p.isPrefixOf ([] : GoString) = true
    · rw [if_pos hp]
      have hp2 : p = [] := by
        rw [ List.isPrefixOf_iff_prefix] at hp
        exact List.prefix_nil.mp hp
      subst hp2
      left
      exact ⟨[], [], rfl, rfl, fun u2 _ _ => Nat.zero_le _⟩
    · rw [if_neg hp]
      right
      refine ⟨?_, rfl⟩
      rintro ⟨u, v, huv⟩
      have hp2 : p = [] := by
        have h1 := congrArg List.length huv
        simp only [List.length_nil, List.length_append] at h1
        exact List.length_eq_zero.mp (by omega)
      subst hp2
      exact hp (by simp)
  | cons c cs ih =>
    rw [strings.ReplaceFirst]
    by_cases hp : p.isPrefixOf (c :: cs) = true
    · rw [if_pos hp]
      rw [ List.isPrefixOf_iff_prefix] at hp
      obtain ⟨t, ht⟩ := hp
      left
      refine ⟨[], t, by simp [ht], ?_, fun u2 _ _ => Nat.zero_le _⟩
      rw [← ht]
      simp
    · rw [if_neg hp]
      have hnp : ∀ v2, c :: cs ≠ p ++ v2 := by
        intro v2 h
        apply hp
        rw [ List.isPrefixOf_iff_prefix]
        exact ⟨v2, h.symm⟩
      rcases ih with ⟨u, v, hk, hr, hmin⟩ | ⟨hno, hr⟩
      · left
        refine ⟨c :: u, v, by simp [hk], by simp [hr], ?_⟩
        intro u2 v2 h2
        cases u2 with
        | nil => exact absurd (by simpa using h2) (hnp v2)
        | cons d u3 =>
          simp only [List.cons_append, List.cons.injEq] at h2
          have := hmin u3 v2 (by simpa using h2.2)
          simp only [List.length_cons]
          omega
      · right
        refine ⟨?_, by simp [hr]⟩
        rintro ⟨u2, v2, h2⟩
        cases u2 with
        | nil => exact absurd (by simpa using h2) (hnp v2)
        | cons d u3 =>
          simp only [List.cons_append, List.cons.injEq] at h2
          exact hno ⟨u3, v2, by simpa using h2.2⟩

theorem lastElem_not_mem (path : GoString) : '/' ∉ filepath.lastElem path := by
  induction path with
  | nil => simp [filepath.lastElem]
  | cons c cs ih =>
    rw [filepath.lastElem]
    split
    · exact ih
    · next hcs =>
      split
      · exact hcs
      · next hc =>
        simp only [List.mem_cons, not_or]
        exact ⟨fun h => hc h.symm, hcs⟩

theorem lastElem_suffix (path : GoString) :
    ∃ dir, path = dir ++ filepath.lastElem path ∧ (dir = [] ∨ dir.getLast? = some '/') := by
  induction path with
  | nil => exact ⟨[], by simp [filepath.lastElem]⟩
  | cons c cs ih =>
    rw [filepath.lastElem]
    split
    · next hmem =>
      obtain ⟨dir, hd, hl⟩ := ih
      refine ⟨c :: dir, by rw [List.cons_append, ← hd], Or.inr ?_⟩
      rcases hl with hnil | hlast
      · subst hnil
        have h3 : cs = filepath.lastElem cs := by simpa using hd
        have h4 : '/' ∈ filepath.lastElem cs := by
          rw [← h3]
          exact hmem
        exact absurd h4 (lastElem_not_mem cs)
      · cases dir with
        | nil => simp at hlast
        | cons d ds => simpa [List.getLast?_cons_cons] using hlast
    · split
      · next hc => exact ⟨[c], by simp, Or.inr (by simp [hc])⟩
      · exact ⟨[], by simp, Or.inl rfl⟩

theorem Join_singleton_of_not_mem (f : GoString) (h : '/' ∉ f) : filepath.Join [f] = f := by
  by_cases hf : f = []
  · subst hf
    simp [filepath.Join]
  · have hhead : f.head? ≠ some '/' := by
      cases f with
      | nil => simp
      | cons a t =>
        simp only [List.mem_cons, not_or] at h
        simpa using fun hh => h.1 hh.symm
    rw [filepath.Join, if_neg hf]
    simp only [strings.Join, filepath.Clean, if_neg hf, Split_of_not_mem f _ h, List.foldl_cons,
      List.foldl_nil, hhead, decide_False, Bool.false_eq_true, if_false]
    by_cases h1 : f = ['.']
    · subst h1
      simp [filepath.cleanStep, strings.Join]
    · by_cases h2 : f = ['.', '.']
      · subst h2
        simp [filepath.cleanStep, strings.Join]
      · simp [filepath.cleanStep, strings.Join, hf, h1, h2]

theorem foldl_cleanStep_plain (rooted : Bool) (segs out : List GoString)
    (h : ∀ seg ∈ segs, plainElem seg) :
    segs.foldl (filepath.cleanStep rooted) out = segs.reverse ++ out := by
  induction segs generalizing out with
  | nil => simp
  | cons a t ih =>
    have ha := h a (by simp)
    rw [List.foldl_cons, ih _ (fun seg hs => h seg (by simp [hs]))]
    simp [filepath.cleanStep, ha.1, ha.2.1, ha.2.2]

theorem Join_Split_plain (key : GoString)
    (h : ∀ seg ∈ strings.Split key '/', plainElem seg) :
    filepath.Join (strings.Split key '/') = key := by
  have hkey : key ≠ [] := by
    intro hk
    subst hk
    exact (h [] (by simp [strings.Split])).1 rfl
  have hhead : key.head? ≠ some '/' := by
    cases key with
    | nil => simp
    | cons a t =>
      intro hh
      simp only [List.head?_cons, Option.some.injEq] at hh
      subst hh
      exact (h [] (by simp [strings.Split])).1 rfl
  cases hs : strings.Split key '/' with
  | nil => exact absurd hs (Split_ne_nil _ _)
  | cons a t =>
    have ha : a ≠ [] := (h a (by simp [hs])).1
    rw [filepath.Join, if_neg ha, ← hs, Join_Split]
    simp only [filepath.Clean, if_neg hkey, hhead, decide_False, Bool.false_eq_true, if_false]
    rw [foldl_cleanStep_plain _ _ _ h]
    simp [Join_Split, hkey]

/-! ## The library model on the cases the Go documentation gives -/

theorem Split_example :
    strings.Split "b/x/y".toList '/' = ["b".toList, "x".toList, "y".toList] := by decide

theorem Split_empty_example :
    strings.Split "".toList '/' = [[]] := by decide

theorem Split_trailing_example :
    strings.Split "a//".toList '/' = ["a".toList, [], []] := by decide

theorem Join_example :
    filepath.Join ["x".toList, "y".toList] = "x/y".toList := by decide

theorem Join_trailing_empty_example :
    filepath.Join ["x".toList, [] ] = "x".toList := by decide

theorem Join_all_empty_example :
    filepath.Join [[], [] ] = [] := by decide

theorem Join_dotdot_example :
    filepath.Join ["a".toList, "..".toList, "b".toList ] = "b".toList := by decide

theorem Clean_rooted_example :
    filepath.Clean "/../a/./b//c/..".toList = "/a/b".toList := by decide

theorem Clean_leading_dotdot_example :
    filepath.Clean "../../a".toList = "../../a".toList := by decide

theorem Clean_backtrack_example :
    filepath.Clean "a/../..".toList = "..".toList := by decide

theorem filepath_Split_example :
    filepath.Split "/tmp/dir/report.csv".toList = ("/tmp/dir/".toList, "report.csv".toList) := by decide

theorem filepath_Split_bare_example :
    filepath.Split "report.csv".toList = ([], "report.csv".toList) := by decide

theorem filepath_Split_dir_example :
    filepath.Split "a/".toList = ("a/".toList, []) := by decide

theorem ReplaceFirst_example :
    strings.ReplaceFirst "a/b/a/bfile".toList "a/b".toList [] = "/a/bfile".toList := by decide

theorem ReplaceFirst_empty_old_example :
    strings.ReplaceFirst "xyz".toList [] [] = "xyz".toList := by decide

/-! ## The retry policy -/

/-- The lines the lister makes of a successful response. -/
theorem listLoop_ok1 (env : S3Env) (s : Session) (b k : GoString) (out : ListObjectsOutput)
    (h1 : env.ListObjects 1 s ⟨b, k⟩ = .ok out) :
    listLoop env s b k 3 4 0 [] =
      some ((out.Contents.map (fun c => strings.ReplaceFirst c.Key k []), none),
        [Event.ListObjects s ⟨b, k⟩]) := by
  simp [listLoop, h1]

theorem listLoop_ok2 (env : S3Env) (s : Session) (b k : GoString) (e1 : Error)
    (out : ListObjectsOutput)
    (h1 : env.ListObjects 1 s ⟨b, k⟩ = .error e1) (h2 : env.ListObjects 2 s ⟨b, k⟩ = .ok out) :
    listLoop env s b k 3 4 0 [] =
      some ((out.Contents.map (fun c => strings.ReplaceFirst c.Key k []), none),
        [Event.ListObjects s ⟨b, k⟩, Event.Sleep 1, Event.ListObjects s ⟨b, k⟩]) := by
  simp [listLoop, h1, h2]

theorem listLoop_ok3 (env : S3Env) (s : Session) (b k : GoString) (e1 e2 : Error)
    (out : ListObjectsOutput)
    (h1 : env.ListObjects 1 s ⟨b, k⟩ = .error e1) (h2 : env.ListObjects 2 s ⟨b, k⟩ = .error e2)
    (h3 : env.ListObjects 3 s ⟨b, k⟩ = .ok out) :
    listLoop env s b k 3 4 0 [] =
      some ((out.Contents.map (fun c => strings.ReplaceFirst c.Key k []), none),
        [Event.ListObjects s ⟨b, k⟩, Event.Sleep 1, Event.ListObjects s ⟨b, k⟩, Event.Sleep 1,
          Event.ListObjects s ⟨b, k⟩]) := by
  simp [listLoop, h1, h2, h3]

theorem listLoop_fail (env : S3Env) (s : Session) (b k : GoString) (e1 e2 e3 : Error)
    (h1 : env.ListObjects 1 s ⟨b, k⟩ = .error e1) (h2 : env.ListObjects 2 s ⟨b, k⟩ = .error e2)
    (h3 : env.ListObjects 3 s ⟨b, k⟩ = .error e3) :
    listLoop env s b k 3 4 0 [] =
      some (([], some e3),
        [Event.ListObjects s ⟨b, k⟩, Event.Sleep 1, Event.ListObjects s ⟨b, k⟩, Event.Sleep 1,
          Event.ListObjects s ⟨b, k⟩]) := by
  simp [listLoop, h1, h2, h3]

theorem readObject_of_length (out : GetObjectOutput) (n : Int)
    (hn : out.ContentLength = some n) (h0 : 0 ≤ n) :
    readObject out = .returned ((out.Body.Read (List.replicate n.toNat 0)).1, none) := by
  have h : ¬ n < 0 := by omega
  simp [readObject, hn, h]

theorem downloadLoop_ok1 (env : S3Env) (s : Session) (b k : GoString) (out : GetObjectOutput)
    (h1 : env.GetObject 1 s ⟨b, k⟩ = .ok out) :
    downloadLoop env s b k 3 4 0 [] =
      some (readObject out, [Event.GetObject s ⟨b, k⟩]) := by
  simp [downloadLoop, h1]

theorem downloadLoop_ok2 (env : S3Env) (s : Session) (b k : GoString) (e1 : Error)
    (out : GetObjectOutput)
    (h1 : env.GetObject 1 s ⟨b, k⟩ = .error e1) (h2 : env.GetObject 2 s ⟨b, k⟩ = .ok out) :
    downloadLoop env s b k 3 4 0 [] =
      some (readObject out,
        [Event.GetObject s ⟨b, k⟩, Event.Sleep 1, Event.GetObject s ⟨b, k⟩]) := by
  simp [downloadLoop, h1, h2]

theorem downloadLoop_ok3 (env : S3Env) (s : Session) (b k : GoString) (e1 e2 : Error)
    (out : GetObjectOutput)
    (h1 : env.GetObject 1 s ⟨b, k⟩ = .error e1) (h2 : env.GetObject 2 s ⟨b, k⟩ = .error e2)
    (h3 : env.GetObject 3 s ⟨b, k⟩ = .ok out) :
    downloadLoop env s b k 3 4 0 [] =
      some (readObject out,
        [Event.GetObject s ⟨b, k⟩, Event.Sleep 1, Event.GetObject s ⟨b, k⟩, Event.Sleep 1,
          Event.GetObject s ⟨b, k⟩]) := by
  simp [downloadLoop, h1, h2, h3]

theorem downloadLoop_fail (env : S3Env) (s : Session) (b k : GoString) (e1 e2 e3 : Error)
    (h1 : env.GetObject 1 s ⟨b, k⟩ = .error e1) (h2 : env.GetObject 2 s ⟨b, k⟩ = .error e2)
    (h3 : env.GetObject 3 s ⟨b, k⟩ = .error e3) :
    downloadLoop env s b k 3 4 0 [] =
      some (.returned ([], some e3),
        [Event.GetObject s ⟨b, k⟩, Event.Sleep 1, Event.GetObject s ⟨b, k⟩, Event.Sleep 1,
          Event.GetObject s ⟨b, k⟩]) := by
  simp [downloadLoop, h1, h2, h3]

theorem uploadLoop_ok1 (env : S3Env) (s : Session) (b k : GoString) (buf : List Byte)
    (h1 : env.PutObject 1 s ⟨b, k, buf⟩ = none) :
    uploadLoop env s b k buf 3 4 0 [] = some (none, [Event.PutObject s ⟨b, k, buf⟩]) := by
  simp [uploadLoop, h1]

theorem uploadLoop_ok2 (env : S3Env) (s : Session) (b k : GoString) (buf : List Byte)
    (e1 : Error)
    (h1 : env.PutObject 1 s ⟨b, k, buf⟩ = some e1) (h2 : env.PutObject 2 s ⟨b, k, buf⟩ = none) :
    uploadLoop env s b k buf 3 4 0 [] =
      some (none, [Event.PutObject s ⟨b, k, buf⟩, Event.Sleep 1, Event.PutObject s ⟨b, k, buf⟩]) := by
  simp [uploadLoop, h1, h2]

theorem uploadLoop_ok3 (env : S3Env) (s : Session) (b k : GoString) (buf : List Byte)
    (e1 e2 : Error)
    (h1 : env.PutObject 1 s ⟨b, k, buf⟩ = some e1) (h2 : env.PutObject 2 s ⟨b, k, buf⟩ = some e2)
    (h3 : env.PutObject 3 s ⟨b, k, buf⟩ = none) :
    uploadLoop env s b k buf 3 4 0 [] =
      some (none, [Event.PutObject s ⟨b, k, buf⟩, Event.Sleep 1, Event.PutObject s ⟨b, k, buf⟩,
        Event.Sleep 1, Event.PutObject s ⟨b, k, buf⟩]) := by
  simp [uploadLoop, h1, h2, h3]

theorem uploadLoop_fail (env : S3Env) (s : Session) (b k : GoString) (buf : List Byte)
    (e1 e2 e3 : Error)
    (h1 : env.PutObject 1 s ⟨b, k, buf⟩ = some e1) (h2 : env.PutObject 2 s ⟨b, k, buf⟩ = some e2)
    (h3 : env.PutObject 3 s ⟨b, k, buf⟩ = some e3) :
    uploadLoop env s b k buf 3 4 0 [] =
      some (some e3, [Event.PutObject s ⟨b, k, buf⟩, Event.Sleep 1, Event.PutObject s ⟨b, k, buf⟩,
        Event.Sleep 1, Event.PutObject s ⟨b, k, buf⟩]) := by
  simp [uploadLoop, h1, h2, h3]

theorem GetListOfFilesFromS3_eq (env : S3Env) (s : Session) (path : GoString) :
    GetListOfFilesFromS3 env s path = listLoop env s (bucketOf path) (keyOf path) 3 4 0 [] := by
  simp only [GetListOfFilesFromS3, validateS3Path_Split, bucketOf, keyOf]

theorem DownloadFromS3_eq (env : S3Env) (s : Session) (path : GoString) :
    DownloadFromS3 env s path = downloadLoop env s (bucketOf path) (keyOf path) 3 4 0 [] := by
  simp only [DownloadFromS3, validateS3Path_Split, bucketOf, keyOf]

theorem UploadToS3_eq (env : S3Env) (s : Session) (toPath fromPath : GoString)
    (buffer : List Byte) :
    UploadToS3 env s toPath fromPath buffer =
      uploadLoop env s (bucketOf toPath) (uploadKeyOf toPath fromPath) buffer 3 4 0 [] := by
  simp only [UploadToS3, validateS3Path_Split, bucketOf, uploadKeyOf]
  split
  · next h =>
    cases hs : strings.Split toPath '/' with
    | nil => exact absurd hs (Split_ne_nil _ _)
    | cons a t => simp
  · rfl

theorem listLoop_trace (env : S3Env) (s : Session) (b k : GoString) :
    ∃ r tr, listLoop env s b k 3 4 0 [] = some (r, Event.ListObjects s ⟨b, k⟩ :: tr) ∧
      ∀ ev ∈ tr, ev = Event.Sleep 1 ∨ ev = Event.ListObjects s ⟨b, k⟩ := by
  rcases h1 : env.ListObjects 1 s ⟨b, k⟩ with e1 | o1
  · rcases h2 : env.ListObjects 2 s ⟨b, k⟩ with e2 | o2
    · rcases h3 : env.ListObjects 3 s ⟨b, k⟩ with e3 | o3
      · exact ⟨_, _, listLoop_fail env s b k e1 e2 e3 h1 h2 h3, by simp⟩
      · exact ⟨_, _, listLoop_ok3 env s b k e1 e2 o3 h1 h2 h3, by simp⟩
    · exact ⟨_, _, listLoop_ok2 env s b k e1 o2 h1 h2, by simp⟩
  · exact ⟨_, _, listLoop_ok1 env s b k o1 h1, by simp⟩

theorem downloadLoop_trace (env : S3Env) (s : Session) (b k : GoString) :
    ∃ r tr, downloadLoop env s b k 3 4 0 [] = some (r, Event.GetObject s ⟨b, k⟩ :: tr) ∧
      ∀ ev ∈ tr, ev = Event.Sleep 1 ∨ ev = Event.GetObject s ⟨b, k⟩ := by
  rcases h1 : env.GetObject 1 s ⟨b, k⟩ with e1 | o1
  · rcases h2 : env.GetObject 2 s ⟨b, k⟩ with e2 | o2
    · rcases h3 : env.GetObject 3 s ⟨b, k⟩ with e3 | o3
      · exact ⟨_, _, downloadLoop_fail env s b k e1 e2 e3 h1 h2 h3, by simp⟩
      · exact ⟨_, _, downloadLoop_ok3 env s b k e1 e2 o3 h1 h2 h3, by simp⟩
    · exact ⟨_, _, downloadLoop_ok2 env s b k e1 o2 h1 h2, by simp⟩
  · exact ⟨_, _, downloadLoop_ok1 env s b k o1 h1, by simp⟩

theorem uploadLoop_trace (env : S3Env) (s : Session) (b k : GoString) (buf : List Byte) :
    ∃ r tr, uploadLoop env s b k buf 3 4 0 [] = some (r, Event.PutObject s ⟨b, k, buf⟩ :: tr) ∧
      ∀ ev ∈ tr, ev = Event.Sleep 1 ∨ ev = Event.PutObject s ⟨b, k, buf⟩ := by
  rcases h1 : env.PutObject 1 s ⟨b, k, buf⟩ with _ | e1
  · exact ⟨_, _, uploadLoop_ok1 env s b k buf h1, by simp⟩
  · rcases h2 : env.PutObject 2 s ⟨b, k, buf⟩ with _ | e2
    · exact ⟨_, _, uploadLoop_ok2 env s b k buf e1 h1 h2, by simp⟩
    · rcases h3 : env.PutObject 3 s ⟨b, k, buf⟩ with _ | e3
      · exact ⟨_, _, uploadLoop_ok3 env s b k buf e1 e2 h1 h2 h3, by simp⟩
      · exact ⟨_, _, uploadLoop_fail env s b k buf e1 e2 e3 h1 h2 h3, by simp⟩

theorem bucketOf_append (bucket key : GoString) (hb : '/' ∉ bucket) :
    bucketOf (bucket ++ '/' :: key) = bucket := by
  simp [bucketOf, Split_append_sep bucket key '/' hb]

theorem keyOf_append (bucket key : GoString) (hb : '/' ∉ bucket) :
    keyOf (bucket ++ '/' :: key) = filepath.Join (strings.Split key '/') := by
  simp [keyOf, Split_append_sep bucket key '/' hb]

theorem uploadKeyOf_append (bucket key fromPath : GoString) (hb : '/' ∉ bucket) :
    uploadKeyOf (bucket ++ '/' :: key) fromPath = filepath.Join (strings.Split key '/') := by
  have h := Split_length_pos key '/'
  have hne : ¬ (strings.Split key '/').length + 1 = 1 := by omega
  simp [uploadKeyOf, Split_append_sep bucket key '/' hb, hne]

/-- The success path of the retry policy: when the remote call of an
operation fails on its first `N` invocations (`N` is 0, 1 or 2) and succeeds
on invocation `N + 1`, the lister and the uploader return a nil error, and so
does the downloader when the response carries a content length that is not
negative; the trace holds exactly `N + 1` remote calls and `N` one-second
sleeps and nothing else. -/
theorem retry_succeeds_after_N_failures (env : S3Env) (s : Session)
    (path toPath fromPath : GoString) (buffer : List Byte) (N : Nat) (hN : N < 3) :
    ((∀ i, 1 ≤ i → i ≤ N → ∃ e, env.ListObjects i s ⟨bucketOf path, keyOf path⟩ = .error e) →
      (∃ out, env.ListObjects (N + 1) s ⟨bucketOf path, keyOf path⟩ = .ok out) →
      ∃ lines tr, GetListOfFilesFromS3 env s path = some ((lines, none), tr) ∧
        remoteCalls tr = N + 1 ∧ oneSecondSleeps tr = N ∧ tr.length = 2 * N + 1) ∧
    ((∀ i, 1 ≤ i → i ≤ N → ∃ e, env.GetObject i s ⟨bucketOf path, keyOf path⟩ = .error e) →
      (∃ out n, env.GetObject (N + 1) s ⟨bucketOf path, keyOf path⟩ = .ok out ∧
        out.ContentLength = some n ∧ 0 ≤ n) →
      ∃ buf tr, DownloadFromS3 env s path = some (.returned (buf, none), tr) ∧
        remoteCalls tr = N + 1 ∧ oneSecondSleeps tr = N ∧ tr.length = 2 * N + 1) ∧
    ((∀ i, 1 ≤ i → i ≤ N →
        ∃ e, env.PutObject i s ⟨bucketOf toPath, uploadKeyOf toPath fromPath, buffer⟩ = some e) →
      env.PutObject (N + 1) s ⟨bucketOf toPath, uploadKeyOf toPath fromPath, buffer⟩ = none →
      ∃ tr, UploadToS3 env s toPath fromPath buffer = some (none, tr) ∧
        remoteCalls tr = N + 1 ∧ oneSecondSleeps tr = N ∧ tr.length = 2 * N + 1) := by
  refine ⟨?_, ?_, ?_⟩
  · intro hfail hok
    obtain ⟨out, hout⟩ := hok
    rw [GetListOfFilesFromS3_eq]
    interval_cases N
    · rw [listLoop_ok1 env s _ _ out hout]
      exact ⟨_, _, rfl, by simp [remoteCalls, Event.isRemoteCall], by simp [oneSecondSleeps], rfl⟩
    · obtain ⟨e1, h1⟩ := hfail 1 (by omega) (by omega)
      rw [listLoop_ok2 env s _ _ e1 out h1 hout]
      exact ⟨_, _, rfl, by simp [remoteCalls, Event.isRemoteCall], by simp [oneSecondSleeps], rfl⟩
    · obtain ⟨e1, h1⟩ := hfail 1 (by omega) (by omega)
      obtain ⟨e2, h2⟩ := hfail 2 (by omega) (by omega)
      rw [listLoop_ok3 env s _ _ e1 e2 out h1 h2 hout]
      exact ⟨_, _, rfl, by simp [remoteCalls, Event.isRemoteCall], by simp [oneSecondSleeps], rfl⟩
  · intro hfail hok
    obtain ⟨out, n, hout, hn, h0⟩ := hok
    rw [DownloadFromS3_eq]
    interval_cases N
    · rw [downloadLoop_ok1 env s _ _ out hout, readObject_of_length out n hn h0]
      exact ⟨_, _, rfl, by simp [remoteCalls, Event.isRemoteCall], by simp [oneSecondSleeps], rfl⟩
    · obtain ⟨e1, h1⟩ := hfail 1 (by omega) (by omega)
      rw [downloadLoop_ok2 env s _ _ e1 out h1 hout, readObject_of_length out n hn h0]
      exact ⟨_, _, rfl, by simp [remoteCalls, Event.isRemoteCall], by simp [oneSecondSleeps], rfl⟩
    · obtain ⟨e1, h1⟩ := hfail 1 (by omega) (by omega)
      obtain ⟨e2, h2⟩ := hfail 2 (by omega) (by omega)
      rw [downloadLoop_ok3 env s _ _ e1 e2 out h1 h2 hout, readObject_of_length out n hn h0]
      exact ⟨_, _, rfl, by simp [remoteCalls, Event.isRemoteCall], by simp [oneSecondSleeps], rfl⟩
  · intro hfail hok
    rw [UploadToS3_eq]
    interval_cases N
    · rw [uploadLoop_ok1 env s _ _ _ hok]
      exact ⟨_, rfl, by simp [remoteCalls, Event.isRemoteCall], by simp [oneSecondSleeps], rfl⟩
    · obtain ⟨e1, h1⟩ := hfail 1 (by omega) (by omega)
      rw [uploadLoop_ok2 env s _ _ _ e1 h1 hok]
      exact ⟨_, rfl, by simp [remoteCalls, Event.isRemoteCall], by simp [oneSecondSleeps], rfl⟩
    · obtain ⟨e1, h1⟩ := hfail 1 (by omega) (by omega)
      obtain ⟨e2, h2⟩ := hfail 2 (by omega) (by omega)
      rw [uploadLoop_ok3 env s _ _ _ e1 e2 h1 h2 hok]
      exact ⟨_, rfl, by simp [remoteCalls, Event.isRemoteCall], by simp [oneSecondSleeps], rfl⟩

/-- C2: for each of the three object operations, when the remote call fails
on all three invocations, the operation makes exactly three remote calls
(with two one-second sleeps between them) and returns the error of the third
call, whatever the errors of the first two calls were. -/
theorem retry_exhausted_returns_last_error (env : S3Env) (s : Session)
    (path toPath fromPath : GoString) (buffer : List Byte) (e1 e2 e3 : Error) :
    (env.ListObjects 1 s ⟨bucketOf path, keyOf path⟩ = .error e1 →
      env.ListObjects 2 s ⟨bucketOf path, keyOf path⟩ = .error e2 →
      env.ListObjects 3 s ⟨bucketOf path, keyOf path⟩ = .error e3 →
      ∃ tr, GetListOfFilesFromS3 env s path = some (([], some e3), tr) ∧
        remoteCalls tr = 3 ∧ oneSecondSleeps tr = 2 ∧ tr.length = 5) ∧
    (env.GetObject 1 s ⟨bucketOf path, keyOf path⟩ = .error e1 →
      env.GetObject 2 s ⟨bucketOf path, keyOf path⟩ = .error e2 →
      env.GetObject 3 s ⟨bucketOf path, keyOf path⟩ = .error e3 →
      ∃ tr, DownloadFromS3 env s path = some (.returned ([], some e3), tr) ∧
        remoteCalls tr = 3 ∧ oneSecondSleeps tr = 2 ∧ tr.length = 5) ∧
    (env.PutObject 1 s ⟨bucketOf toPath, uploadKeyOf toPath fromPath, buffer⟩ = some e1 →
      env.PutObject 2 s ⟨bucketOf toPath, uploadKeyOf toPath fromPath, buffer⟩ = some e2 →
      env.PutObject 3 s ⟨bucketOf toPath, uploadKeyOf toPath fromPath, buffer⟩ = some e3 →
      ∃ tr, UploadToS3 env s toPath fromPath buffer = some (some e3, tr) ∧
        remoteCalls tr = 3 ∧ oneSecondSleeps tr = 2 ∧ tr.length = 5) := by
  refine ⟨?_, ?_, ?_⟩
  · intro h1 h2 h3
    rw [GetListOfFilesFromS3_eq, listLoop_fail env s _ _ e1 e2 e3 h1 h2 h3]
    exact ⟨_, rfl, by simp [remoteCalls, Event.isRemoteCall], by simp [oneSecondSleeps], rfl⟩
  · intro h1 h2 h3
    rw [DownloadFromS3_eq, downloadLoop_fail env s _ _ e1 e2 e3 h1 h2 h3]
    exact ⟨_, rfl, by simp [remoteCalls, Event.isRemoteCall], by simp [oneSecondSleeps], rfl⟩
  · intro h1 h2 h3
    rw [UploadToS3_eq, uploadLoop_fail env s _ _ _ e1 e2 e3 h1 h2 h3]
    exact ⟨_, rfl, by simp [remoteCalls, Event.isRemoteCall], by simp [oneSecondSleeps], rfl⟩

/-- The success path at a concrete input: a remote side failing twice, then
serving. -/
theorem retry_succeeds_after_N_failures_witness :
    2 < 3 ∧
    (∃ lines tr, GetListOfFilesFromS3 (flakyEnv 2) ⟨7⟩ "b/a/b".toList = some ((lines, none), tr) ∧
        remoteCalls tr = 2 + 1 ∧ oneSecondSleeps tr = 2 ∧ tr.length = 2 * 2 + 1) ∧
    (∃ buf tr, DownloadFromS3 (flakyEnv 2) ⟨7⟩ "b/a/b".toList =
        some (.returned (buf, none), tr) ∧
        remoteCalls tr = 2 + 1 ∧ oneSecondSleeps tr = 2 ∧ tr.length = 2 * 2 + 1) ∧
    (∃ tr, UploadToS3 (flakyEnv 2) ⟨7⟩ "b".toList "/tmp/dir/report.csv".toList [1, 2] =
        some (none, tr) ∧
        remoteCalls tr = 2 + 1 ∧ oneSecondSleeps tr = 2 ∧ tr.length = 2 * 2 + 1) :=
  have h := retry_succeeds_after_N_failures (flakyEnv 2) ⟨7⟩ "b/a/b".toList "b".toList
    "/tmp/dir/report.csv".toList [1, 2] 2 (by decide)
  ⟨by decide,
    h.1 (fun i _ hi => ⟨⟨List.replicate i 'l'⟩, by simp [flakyEnv, hi]⟩) ⟨_, rfl⟩,
    h.2.1 (fun i _ hi => ⟨⟨List.replicate i 'g'⟩, by simp [flakyEnv, hi]⟩)
      ⟨⟨some 3, ⟨[[1, 2, 3]]⟩⟩, 3, rfl, rfl, by decide⟩,
    h.2.2 (fun i _ hi => ⟨⟨List.replicate i 'u'⟩, by simp [flakyEnv, hi]⟩) (by simp [flakyEnv])⟩

/-- C2 at a concrete input: a remote side failing three times, with three
different errors per operation. -/
theorem retry_exhausted_returns_last_error_witness :
    (∃ tr, GetListOfFilesFromS3 (flakyEnv 3) ⟨7⟩ "b/a/b".toList =
        some (([], some ⟨['l', 'l', 'l']⟩), tr) ∧
        remoteCalls tr = 3 ∧ oneSecondSleeps tr = 2 ∧ tr.length = 5) ∧
    (∃ tr, DownloadFromS3 (flakyEnv 3) ⟨7⟩ "b/a/b".toList =
        some (.returned ([], some ⟨['g', 'g', 'g']⟩), tr) ∧
        remoteCalls tr = 3 ∧ oneSecondSleeps tr = 2 ∧ tr.length = 5) ∧
    (∃ tr, UploadToS3 (flakyEnv 3) ⟨7⟩ "b".toList "/tmp/dir/report.csv".toList [1, 2] =
        some (some ⟨['u', 'u', 'u']⟩, tr) ∧
        remoteCalls tr = 3 ∧ oneSecondSleeps tr = 2 ∧ tr.length = 5) :=
  ⟨(retry_exhausted_returns_last_error (flakyEnv 3) ⟨7⟩ "b/a/b".toList "b".toList
      "/tmp/dir/report.csv".toList [1, 2] ⟨['l']⟩ ⟨['l', 'l']⟩ ⟨['l', 'l', 'l']⟩).1
      (by simp [flakyEnv]) (by simp [flakyEnv]) (by simp [flakyEnv]),
    (retry_exhausted_returns_last_error (flakyEnv 3) ⟨7⟩ "b/a/b".toList "b".toList
      "/tmp/dir/report.csv".toList [1, 2] ⟨['g']⟩ ⟨['g', 'g']⟩ ⟨['g', 'g', 'g']⟩).2.1
      (by simp [flakyEnv]) (by simp [flakyEnv]) (by simp [flakyEnv]),
    (retry_exhausted_returns_last_error (flakyEnv 3) ⟨7⟩ "b/a/b".toList "b".toList
      "/tmp/dir/report.csv".toList [1, 2] ⟨['u']⟩ ⟨['u', 'u']⟩ ⟨['u', 'u', 'u']⟩).2.2
      (by simp [flakyEnv]) (by simp [flakyEnv]) (by simp [flakyEnv])⟩

/-! ## Path interpretation, as the operations use it -/

/-- C5 (as stated, refuted): for bucket `b` and the non-empty key `x/`, the
path `b/x/` makes the three operations address the key `x`, not `x/`. -/
theorem split_join_counterexample :
    "b".toList ≠ [] ∧ '/' ∉ "b".toList ∧ "x/".toList ≠ [] ∧
    GetListOfFilesFromS3 (flakyEnv 0) ⟨7⟩ ("b".toList ++ '/' :: "x/".toList) =
      some ((["a/b/a/bfile".toList, "a/c".toList], none),
        [Event.ListObjects ⟨7⟩ ⟨"b".toList, "x".toList⟩]) ∧
    DownloadFromS3 (flakyEnv 0) ⟨7⟩ ("b".toList ++ '/' :: "x/".toList) =
      some (.returned ([1, 2, 3], none), [Event.GetObject ⟨7⟩ ⟨"b".toList, "x".toList⟩]) ∧
    UploadToS3 (flakyEnv 0) ⟨7⟩ ("b".toList ++ '/' :: "x/".toList) "f".toList [1] =
      some (none, [Event.PutObject ⟨7⟩ ⟨"b".toList, "x".toList, [1]⟩]) ∧
    ("b".toList, "x".toList) ≠ ("b".toList, "x/".toList) := by
  refine ⟨by decide, by decide, by decide, ?_, ?_, ?_, by decide⟩ <;> rfl

/-- C5 (amended): for every logical path `bucket + "/" + key` with `bucket`
non-empty and free of `/` and every element of `key` between slashes
non-empty and neither `.` nor `..`, the three operations address exactly
`(bucket, key)`: their first event is the remote call on that bucket and
key, and every later event is a one-second sleep or the same call again. -/
theorem split_join_left_inverse_on_plain_keys (env : S3Env) (s : Session)
    (bucket key fromPath : GoString) (buffer : List Byte)
    (_hb : bucket ≠ []) (hslash : '/' ∉ bucket)
    (hkey : ∀ seg ∈ strings.Split key '/', seg ≠ [] ∧ seg ≠ ['.'] ∧ seg ≠ ['.', '.']) :
    (bucketOf (bucket ++ '/' :: key), keyOf (bucket ++ '/' :: key)) = (bucket, key) ∧
    (∃ r tr, GetListOfFilesFromS3 env s (bucket ++ '/' :: key) =
        some (r, Event.ListObjects s ⟨bucket, key⟩ :: tr) ∧
      ∀ ev ∈ tr, ev = Event.Sleep 1 ∨ ev = Event.ListObjects s ⟨bucket, key⟩) ∧
    (∃ r tr, DownloadFromS3 env s (bucket ++ '/' :: key) =
        some (r, Event.GetObject s ⟨bucket, key⟩ :: tr) ∧
      ∀ ev ∈ tr, ev = Event.Sleep 1 ∨ ev = Event.GetObject s ⟨bucket, key⟩) ∧
    (∃ r tr, UploadToS3 env s (bucket ++ '/' :: key) fromPath buffer =
        some (r, Event.PutObject s ⟨bucket, key, buffer⟩ :: tr) ∧
      ∀ ev ∈ tr, ev = Event.Sleep 1 ∨ ev = Event.PutObject s ⟨bucket, key, buffer⟩) := by
  have hk : filepath.Join (strings.Split key '/') = key := Join_Split_plain key hkey
  have h1 : bucketOf (bucket ++ '/' :: key) = bucket := bucketOf_append bucket key hslash
  have h2 : keyOf (bucket ++ '/' :: key) = key := by rw [keyOf_append bucket key hslash, hk]
  have h3 : uploadKeyOf (bucket ++ '/' :: key) fromPath = key := by
    rw [uploadKeyOf_append bucket key fromPath hslash, hk]
  refine ⟨by rw [h1, h2], ?_, ?_, ?_⟩
  · rw [GetListOfFilesFromS3_eq, h1, h2]
    exact listLoop_trace env s bucket key
  · rw [DownloadFromS3_eq, h1, h2]
    exact downloadLoop_trace env s bucket key
  · rw [UploadToS3_eq, h1, h3]
    exact uploadLoop_trace env s bucket key buffer

/-- C5 (amended) at the path `b/x/y`: bucket `b`, key `x/y`. -/
theorem split_join_left_inverse_on_plain_keys_witness :
    (bucketOf "b/x/y".toList, keyOf "b/x/y".toList) = ("b".toList, "x/y".toList) ∧
    (∃ r tr, GetListOfFilesFromS3 (flakyEnv 1) ⟨7⟩ "b/x/y".toList =
        some (r, Event.ListObjects ⟨7⟩ ⟨"b".toList, "x/y".toList⟩ :: tr) ∧
      ∀ ev ∈ tr, ev = Event.Sleep 1 ∨ ev = Event.ListObjects ⟨7⟩ ⟨"b".toList, "x/y".toList⟩) ∧
    (∃ r tr, DownloadFromS3 (flakyEnv 1) ⟨7⟩ "b/x/y".toList =
        some (r, Event.GetObject ⟨7⟩ ⟨"b".toList, "x/y".toList⟩ :: tr) ∧
      ∀ ev ∈ tr, ev = Event.Sleep 1 ∨ ev = Event.GetObject ⟨7⟩ ⟨"b".toList, "x/y".toList⟩) ∧
    (∃ r tr, UploadToS3 (flakyEnv 1) ⟨7⟩ "b/x/y".toList "f".toList [1] =
        some (r, Event.PutObject ⟨7⟩ ⟨"b".toList, "x/y".toList, [1]⟩ :: tr) ∧
      ∀ ev ∈ tr, ev = Event.Sleep 1 ∨
        ev = Event.PutObject ⟨7⟩ ⟨"b".toList, "x/y".toList, [1]⟩) :=
  split_join_left_inverse_on_plain_keys (flakyEnv 1) ⟨7⟩ "b".toList "x/y".toList "f".toList [1]
    (by decide) (by decide) (by decide)

/-- C4: for every destination path free of `/` and every source path,
`UploadToS3` issues `PutObject` with the destination path as bucket, the
whole caller buffer as body, and as key the file name of the source path: the
part `file` after its last `/` (the source path is `dir ++ file`, `file` has
no `/`, and `dir` is empty or ends in `/`). Every retry repeats that call. -/
theorem upload_bucket_only_uses_base_name (env : S3Env) (s : Session)
    (toPath fromPath : GoString) (buffer : List Byte) (h : '/' ∉ toPath) :
    ∃ dir file, fromPath = dir ++ file ∧ '/' ∉ file ∧ (dir = [] ∨ dir.getLast? = some '/') ∧
      ∃ r tr, UploadToS3 env s toPath fromPath buffer =
          some (r, Event.PutObject s ⟨toPath, file, buffer⟩ :: tr) ∧
        ∀ ev ∈ tr, ev = Event.Sleep 1 ∨ ev = Event.PutObject s ⟨toPath, file, buffer⟩ := by
  obtain ⟨dir, hd, hl⟩ := lastElem_suffix fromPath
  refine ⟨dir, filepath.lastElem fromPath, hd, lastElem_not_mem fromPath, hl, ?_⟩
  have h1 : bucketOf toPath = toPath := by simp [bucketOf, Split_of_not_mem toPath '/' h]
  have h2 : uploadKeyOf toPath fromPath = filepath.lastElem fromPath := by
    simp only [uploadKeyOf, Split_of_not_mem toPath '/' h, filepath.Split, List.length_singleton,
      if_true, List.singleton_append, List.drop_succ_cons, List.drop_zero]
    exact Join_singleton_of_not_mem _ (lastElem_not_mem fromPath)
  rw [UploadToS3_eq, h1, h2]
  exact uploadLoop_trace env s toPath _ buffer

/-- C4 at the destination `bucket` and the source `/tmp/dir/report.csv`: the
object is written under the key `report.csv`. -/
theorem upload_bucket_only_uses_base_name_witness :
    '/' ∉ "bucket".toList ∧
    (∃ dir file, "/tmp/dir/report.csv".toList = dir ++ file ∧ '/' ∉ file ∧
      (dir = [] ∨ dir.getLast? = some '/') ∧
      ∃ r tr, UploadToS3 (flakyEnv 0) ⟨7⟩ "bucket".toList "/tmp/dir/report.csv".toList [1, 2] =
          some (r, Event.PutObject ⟨7⟩ ⟨"bucket".toList, file, [1, 2]⟩ :: tr) ∧
        ∀ ev ∈ tr, ev = Event.Sleep 1 ∨
          ev = Event.PutObject ⟨7⟩ ⟨"bucket".toList, file, [1, 2]⟩) ∧
    UploadToS3 (flakyEnv 0) ⟨7⟩ "bucket".toList "/tmp/dir/report.csv".toList [1, 2] =
      some (none, [Event.PutObject ⟨7⟩ ⟨"bucket".toList, "report.csv".toList, [1, 2]⟩]) :=
  ⟨by decide,
    upload_bucket_only_uses_base_name (flakyEnv 0) ⟨7⟩ "bucket".toList
      "/tmp/dir/report.csv".toList [1, 2] (by decide),
    rfl⟩

/-- C6 (the code at the failing input): the empty path is not rejected. Its
split is the one-element list `[""]`, which `validateS3Path` accepts, and
each operation goes on to call the remote side with the empty bucket (and
the empty key, or the source file name for the uploader). -/
theorem empty_path_is_not_rejected (env : S3Env) (s : Session) (fromPath : GoString)
    (buffer : List Byte) :
    strings.Split [] '/' = [[]] ∧ validateS3Path (strings.Split [] '/') = none ∧
    (∃ r tr, GetListOfFilesFromS3 env s [] = some (r, Event.ListObjects s ⟨[], []⟩ :: tr)) ∧
    (∃ r tr, DownloadFromS3 env s [] = some (r, Event.GetObject s ⟨[], []⟩ :: tr)) ∧
    (∃ r tr, UploadToS3 env s [] fromPath buffer =
      some (r, Event.PutObject s ⟨[], (filepath.Split fromPath).2, buffer⟩ :: tr)) := by
  refine ⟨rfl, rfl, ?_, ?_, ?_⟩
  · obtain ⟨r, tr, h, _⟩ := listLoop_trace env s [] []
    exact ⟨r, tr, by rw [GetListOfFilesFromS3_eq]; exact h⟩
  · obtain ⟨r, tr, h, _⟩ := downloadLoop_trace env s [] []
    exact ⟨r, tr, by rw [DownloadFromS3_eq]; exact h⟩
  · obtain ⟨r, tr, h, _⟩ := uploadLoop_trace env s [] (filepath.Split fromPath).2 buffer
    have h2 : uploadKeyOf [] fromPath = (filepath.Split fromPath).2 := by
      simp only [uploadKeyOf, strings.Split, List.length_singleton, if_true,
        List.singleton_append, List.drop_succ_cons, List.drop_zero, filepath.Split]
      exact Join_singleton_of_not_mem _ (lastElem_not_mem fromPath)
    exact ⟨r, tr, by rw [UploadToS3_eq, h2]; exact h⟩

/-! ## The lister and the downloader -/

/-- C3: when `ListObjects` first succeeds on invocation `N + 1` (`N` is 0, 1
or 2) with the objects `k1 .. kn`, `GetListOfFilesFromS3` returns, with a nil
error, one entry per object in the order of the response, the entry of `ki`
being `ki` with the first occurrence of `p` removed, where `p` is the key part
the lister derives from the path and sends as the prefix of the request; a
response without objects gives the empty sequence. -/
theorem lister_strips_first_occurrence (env : S3Env) (s : Session) (path : GoString)
    (N : Nat) (out : ListObjectsOutput) (hN : N < 3)
    (hfail : ∀ i, 1 ≤ i → i ≤ N →
      ∃ e, env.ListObjects i s ⟨bucketOf path, keyOf path⟩ = .error e)
    (hok : env.ListObjects (N + 1) s ⟨bucketOf path, keyOf path⟩ = .ok out) :
    ∃ lines tr, GetListOfFilesFromS3 env s path = some ((lines, none), tr) ∧
      lines.length = out.Contents.length ∧
      List.Forall₂ (fun o r => FirstOccurrenceRemoved (keyOf path) o.Key r) out.Contents lines ∧
      (out.Contents = [] → lines = []) := by
  have hrun : ∃ tr, GetListOfFilesFromS3 env s path =
      some ((out.Contents.map (fun c => strings.ReplaceFirst c.Key (keyOf path) []), none),
        tr) := by
    rw [GetListOfFilesFromS3_eq]
    interval_cases N
    · exact ⟨_, listLoop_ok1 env s _ _ out hok⟩
    · obtain ⟨e1, h1⟩ := hfail 1 (by omega) (by omega)
      exact ⟨_, listLoop_ok2 env s _ _ e1 out h1 hok⟩
    · obtain ⟨e1, h1⟩ := hfail 1 (by omega) (by omega)
      obtain ⟨e2, h2⟩ := hfail 2 (by omega) (by omega)
      exact ⟨_, listLoop_ok3 env s _ _ e1 e2 out h1 h2 hok⟩
  obtain ⟨tr, htr⟩ := hrun
  refine ⟨_, tr, htr, by simp, ?_, ?_⟩
  · rw [List.forall₂_map_right_iff, List.forall₂_same]
    intro o _
    exact ReplaceFirst_spec (keyOf path) o.Key
  · intro h
    simp [h]

/-- C3 at the path `b/a/b`: the key `a/b/a/bfile` is listed as `/a/bfile`,
the key `a/c` as it is, and an empty response as the empty sequence. -/
theorem lister_strips_first_occurrence_witness :
    2 < 3 ∧
    (∃ lines tr, GetListOfFilesFromS3 (flakyEnv 2) ⟨7⟩ "b/a/b".toList =
        some ((lines, none), tr) ∧
      lines.length = [(⟨"a/b/a/bfile".toList⟩ : Object), ⟨"a/c".toList⟩].length ∧
      List.Forall₂ (fun o r => FirstOccurrenceRemoved (keyOf "b/a/b".toList) o.Key r)
        [(⟨"a/b/a/bfile".toList⟩ : Object), ⟨"a/c".toList⟩] lines ∧
      ([(⟨"a/b/a/bfile".toList⟩ : Object), ⟨"a/c".toList⟩] = [] → lines = [])) ∧
    keyOf "b/a/b".toList = "a/b".toList ∧
    (GetListOfFilesFromS3 (flakyEnv 2) ⟨7⟩ "b/a/b".toList).map (fun r => r.1) =
      some (["/a/bfile".toList, "a/c".toList], none) ∧
    (GetListOfFilesFromS3 (uniformEnv true) ⟨7⟩ "b/a/b".toList).map (fun r => r.1) =
      some ([], none) :=
  ⟨by decide,
    lister_strips_first_occurrence (flakyEnv 2) ⟨7⟩ "b/a/b".toList 2
      ⟨[⟨"a/b/a/bfile".toList⟩, ⟨"a/c".toList⟩]⟩ (by decide)
      (fun i _ hi => ⟨⟨List.replicate i 'l'⟩, by simp [flakyEnv, hi]⟩) rfl,
    rfl, rfl, rfl⟩

theorem Read_length (r : Reader) (p : List Byte) : (r.Read p).1.length = p.length := by
  unfold Reader.Read
  cases r.pending with
  | nil => rfl
  | cons c rest =>
    simp only [List.length_append, List.length_take, List.length_drop]
    omega

/-- C8: when `GetObject` first succeeds on invocation `N + 1` (`N` is 0, 1 or
2) with a declared content length `n ≥ 0`, `DownloadFromS3` returns a nil
error and a buffer of exactly `n` bytes, whatever chunks the body reader
delivers; for `n = 0` the buffer is empty. -/
theorem download_buffer_has_declared_length (env : S3Env) (s : Session) (path : GoString)
    (N : Nat) (out : GetObjectOutput) (n : Int) (hN : N < 3)
    (hfail : ∀ i, 1 ≤ i → i ≤ N →
      ∃ e, env.GetObject i s ⟨bucketOf path, keyOf path⟩ = .error e)
    (hok : env.GetObject (N + 1) s ⟨bucketOf path, keyOf path⟩ = .ok out)
    (hn : out.ContentLength = some n) (h0 : 0 ≤ n) :
    ∃ buf tr, DownloadFromS3 env s path = some (.returned (buf, none), tr) ∧
      (buf.length : Int) = n ∧ (n = 0 → buf = []) := by
  have hrun : ∃ tr, DownloadFromS3 env s path =
      some (.returned ((out.Body.Read (List.replicate n.toNat 0)).1, none), tr) := by
    rw [DownloadFromS3_eq, ← readObject_of_length out n hn h0]
    interval_cases N
    · exact ⟨_, downloadLoop_ok1 env s _ _ out hok⟩
    · obtain ⟨e1, h1⟩ := hfail 1 (by omega) (by omega)
      exact ⟨_, downloadLoop_ok2 env s _ _ e1 out h1 hok⟩
    · obtain ⟨e1, h1⟩ := hfail 1 (by omega) (by omega)
      obtain ⟨e2, h2⟩ := hfail 2 (by omega) (by omega)
      exact ⟨_, downloadLoop_ok3 env s _ _ e1 e2 out h1 h2 hok⟩
  obtain ⟨tr, htr⟩ := hrun
  have hlen : (out.Body.Read (List.replicate n.toNat 0)).1.length = n.toNat := by
    rw [Read_length, List.length_replicate]
  refine ⟨_, tr, htr, ?_, ?_⟩
  · rw [hlen]
    exact Int.toNat_of_nonneg h0
  · intro hz
    apply List.length_eq_zero.mp
    rw [hlen, hz]
    rfl

/-- C8 at a concrete input: an object of declared length 3, delivered in two
chunks, downloaded on the second attempt. -/
theorem download_buffer_has_declared_length_witness :
    1 < 3 ∧ (0 : Int) ≤ 3 ∧
    (∃ buf tr, DownloadFromS3 (flakyEnv 1) ⟨7⟩ "b/chunked".toList =
        some (.returned (buf, none), tr) ∧
      (buf.length : Int) = 3 ∧ ((3 : Int) = 0 → buf = [])) :=
  ⟨by decide, by decide,
    download_buffer_has_declared_length (flakyEnv 1) ⟨7⟩ "b/chunked".toList 1
      ⟨some 3, ⟨[[1], [2, 3]]⟩⟩ 3 (by decide)
      (fun i _ hi => ⟨⟨List.replicate i 'g'⟩, by simp [flakyEnv, hi]⟩) rfl rfl (by decide)⟩

/-- C7 (the code at the failing input): the object `chunked` has the declared
content length 3 and the body `1, 2, 3`, delivered in the chunks `1` and
`2, 3`. `GetObject` succeeds, and `DownloadFromS3` returns a nil error with
the buffer `1, 0, 0`: only the first chunk was read. -/
theorem short_read_is_returned_as_success :
    (flakyEnv 0).GetObject 1 ⟨7⟩ ⟨"b".toList, "chunked".toList⟩ =
      .ok ⟨some 3, ⟨[[1], [2, 3]]⟩⟩ ∧
    ([[1], [2, 3]] : List (List Byte)).flatten = [1, 2, 3] ∧
    DownloadFromS3 (flakyEnv 0) ⟨7⟩ "b/chunked".toList =
      some (.returned ([1, 0, 0], none),
        [Event.GetObject ⟨7⟩ ⟨"b".toList, "chunked".toList⟩]) ∧
    ([1, 0, 0] : List Byte) ≠ [1, 2, 3] := by
  refine ⟨rfl, rfl, rfl, by decide⟩

/-- C1 (the code at the failing input): `GetObject` succeeds on its first
invocation for the object `nolength` with a response that carries no content
length (a nil `ContentLength`) and the body `1, 2, 3`. `DownloadFromS3` makes
that one remote call and then panics on the nil pointer: it returns neither a
buffer nor an error, where a nil error is due after one remote call and no
sleep. -/
theorem download_panics_without_content_length :
    (flakyEnv 0).GetObject 1 ⟨7⟩ ⟨"b".toList, "nolength".toList⟩ =
      .ok ⟨none, ⟨[[1, 2, 3]]⟩⟩ ∧
    DownloadFromS3 (flakyEnv 0) ⟨7⟩ "b/nolength".toList =
      some (.panicked .nilDereference,
        [Event.GetObject ⟨7⟩ ⟨"b".toList, "nolength".toList⟩]) ∧
    (∀ buf : List Byte,
      (Outcome.panicked .nilDereference : Outcome (List Byte × Option Error)) ≠
        .returned (buf, none)) := by
  refine ⟨rfl, rfl, ?_⟩
  intro buf h
  cases h

/-! ## The session factory -/

theorem attemptOutcome_ok (env : S3Env) (i : Nat) (s : Session)
    (h : attemptOutcome env i = .ok s) :
    getNewSession env i = .ok s ∧ env.ListBuckets i s = none := by
  unfold attemptOutcome at h
  split at h
  · simp at h
  · next s2 hc =>
    split at h
    · simp at h
    · next hp =>
      simp only [Except.ok.injEq] at h
      subst h
      exact ⟨hc, hp⟩

theorem attemptOutcome_error (env : S3Env) (i : Nat) (e : Error)
    (h : attemptOutcome env i = .error e) :
    getNewSession env i = .error e ∨
      ∃ s, getNewSession env i = .ok s ∧ env.ListBuckets i s = some e := by
  unfold attemptOutcome at h
  split at h
  · next e2 hc =>
    simp only [Except.error.injEq] at h
    subst h
    exact Or.inl hc
  · next s2 hc =>
    split at h
    · next e2 hp =>
      simp only [Except.error.injEq] at h
      subst h
      exact Or.inr ⟨s2, hc, hp⟩
    · simp at h

/-- C9: when attempt `k` (1, 2 or 3) is the first attempt of the session
factory on which the construction and the probe both succeed, `GetClientToS3`
returns the session of that attempt with a nil error; its trace holds exactly
`k` constructions, one probe for every attempt up to `k` whose construction
succeeded, `k - 1` one-second sleeps and nothing else, and ends with the
successful probe. When none of the three attempts succeeds, it returns a nil
session with the error of the third attempt, after three constructions. -/
theorem client_returns_first_successful_attempt (env : S3Env) :
    (∀ k s, 1 ≤ k → k ≤ 3 →
      (∀ j, 1 ≤ j → j < k → ∃ e, attemptOutcome env j = .error e) →
      attemptOutcome env k = .ok s →
      ∃ tr, GetClientToS3 env = some ((some s, none), tr) ∧
        constructions tr = k ∧ probes tr = constructedUpTo env k ∧
        oneSecondSleeps tr = k - 1 ∧ tr.length = k + constructedUpTo env k + (k - 1) ∧
        tr.getLast? = some (Event.ListBuckets s)) ∧
    (∀ e1 e2 e3, attemptOutcome env 1 = .error e1 → attemptOutcome env 2 = .error e2 →
      attemptOutcome env 3 = .error e3 →
      ∃ tr, GetClientToS3 env = some ((none, some e3), tr) ∧
        constructions tr = 3 ∧ probes tr = constructedUpTo env 3 ∧
        oneSecondSleeps tr = 2 ∧ tr.length = 3 + constructedUpTo env 3 + 2) := by
  refine ⟨?_, ?_⟩
  · intro k s hk1 hk3 hfail hok
    obtain ⟨hc, hp⟩ := attemptOutcome_ok env k s hok
    interval_cases k
    · simp [GetClientToS3, clientLoop, hc, hp, constructions, probes, oneSecondSleeps,
        constructedUpTo, constructs, Event.isNewSession, Event.isListBuckets, List.range']
    · obtain ⟨e1, h1⟩ := hfail 1 (by omega) (by omega)
      obtain (hc1 | ⟨s1, hc1, hp1⟩) := attemptOutcome_error env 1 e1 h1 <;>
      simp [GetClientToS3, clientLoop, *, constructions, probes,
        oneSecondSleeps, constructedUpTo, constructs, Event.isNewSession,
        Event.isListBuckets, List.range']
    · obtain ⟨e1, h1⟩ := hfail 1 (by omega) (by omega)
      obtain ⟨e2, h2⟩ := hfail 2 (by omega) (by omega)
      obtain (hc1 | ⟨s1, hc1, hp1⟩) := attemptOutcome_error env 1 e1 h1 <;>
      obtain (hc2 | ⟨s2, hc2, hp2⟩) := attemptOutcome_error env 2 e2 h2 <;>
      simp [GetClientToS3, clientLoop, *, constructions, probes,
        oneSecondSleeps, constructedUpTo, constructs, Event.isNewSession,
        Event.isListBuckets, List.range']
  · intro e1 e2 e3 h1 h2 h3
    obtain (hc1 | ⟨s1, hc1, hp1⟩) := attemptOutcome_error env 1 e1 h1 <;>
    obtain (hc2 | ⟨s2, hc2, hp2⟩) := attemptOutcome_error env 2 e2 h2 <;>
    obtain (hc3 | ⟨s3, hc3, hp3⟩) := attemptOutcome_error env 3 e3 h3 <;>
    simp [GetClientToS3, clientLoop, *, constructions, probes,
      oneSecondSleeps, constructedUpTo, constructs, Event.isNewSession,
      Event.isListBuckets, List.range']

/-- C9 at concrete inputs: a remote side whose third attempt is the first to
succeed (the first fails in the probe, the second in the construction), and
one whose three attempts all fail. -/
theorem client_returns_first_successful_attempt_witness :
    (∃ tr, GetClientToS3 (flakyEnv 2) = some ((some ⟨3⟩, none), tr) ∧
        constructions tr = 3 ∧ probes tr = constructedUpTo (flakyEnv 2) 3 ∧
        oneSecondSleeps tr = 3 - 1 ∧ tr.length = 3 + constructedUpTo (flakyEnv 2) 3 + (3 - 1) ∧
        tr.getLast? = some (Event.ListBuckets ⟨3⟩)) ∧
    constructedUpTo (flakyEnv 2) 3 = 2 ∧
    (∃ tr, GetClientToS3 (flakyEnv 3) = some ((none, some ⟨['p', 'p', 'p']⟩), tr) ∧
        constructions tr = 3 ∧ probes tr = constructedUpTo (flakyEnv 3) 3 ∧
        oneSecondSleeps tr = 2 ∧ tr.length = 3 + constructedUpTo (flakyEnv 3) 3 + 2) :=
  ⟨(client_returns_first_successful_attempt (flakyEnv 2)).1 3 ⟨3⟩ (by decide) (by decide)
      (fun j h1 h2 => by
        interval_cases j
        · exact ⟨_, rfl⟩
        · exact ⟨_, rfl⟩)
      rfl,
    rfl,
    (client_returns_first_successful_attempt (flakyEnv 3)).2 ⟨['p']⟩ ⟨['c', 'c']⟩
      ⟨['p', 'p', 'p']⟩ rfl rfl rfl⟩

/-! ## What a surfaced error carries -/

/-- C10 (as stated, refuted): with a remote side whose every call fails with
the same error `boom`, the lister surfaces the same error for the two
different paths `b/x` and `c/y`, and the downloader and the uploader surface
that same error too: the surfaced error determines neither the path nor the
operation. -/
theorem surfaced_errors_do_not_identify_path :
    "b/x".toList ≠ "c/y".toList ∧
    (GetListOfFilesFromS3 (uniformEnv false) ⟨7⟩ "b/x".toList).map (fun r => r.1.2) =
      some (some ⟨"boom".toList⟩) ∧
    (GetListOfFilesFromS3 (uniformEnv false) ⟨7⟩ "c/y".toList).map (fun r => r.1.2) =
      some (some ⟨"boom".toList⟩) ∧
    (DownloadFromS3 (uniformEnv false) ⟨7⟩ "b/x".toList).map (fun r => r.1) =
      some (.returned ([], some ⟨"boom".toList⟩)) ∧
    (UploadToS3 (uniformEnv false) ⟨7⟩ "b/x".toList "f".toList [1]).map (fun r => r.1) =
      some (some ⟨"boom".toList⟩) := by
  refine ⟨by decide, ?_, ?_, ?_, ?_⟩ <;> rfl

/-- C10 (amended): the error each of the three operations surfaces after
exhausting its retries is the error of its final (third) remote call, passed
on unchanged, whatever the errors of the first two calls: when the lister on
the paths `path1` and `path2`, the downloader and the uploader all fail three
times and the third call fails with the same error `e` in each, every one of
them surfaces exactly `e`. -/
theorem surfaced_error_is_the_final_remote_error (env : S3Env) (s : Session)
    (path1 path2 toPath fromPath : GoString) (buffer : List Byte)
    (a1 a2 b1 b2 c1 c2 d1 d2 e : Error)
    (ha1 : env.ListObjects 1 s ⟨bucketOf path1, keyOf path1⟩ = .error a1)
    (ha2 : env.ListObjects 2 s ⟨bucketOf path1, keyOf path1⟩ = .error a2)
    (ha3 : env.ListObjects 3 s ⟨bucketOf path1, keyOf path1⟩ = .error e)
    (hb1 : env.ListObjects 1 s ⟨bucketOf path2, keyOf path2⟩ = .error b1)
    (hb2 : env.ListObjects 2 s ⟨bucketOf path2, keyOf path2⟩ = .error b2)
    (hb3 : env.ListObjects 3 s ⟨bucketOf path2, keyOf path2⟩ = .error e)
    (hc1 : env.GetObject 1 s ⟨bucketOf path1, keyOf path1⟩ = .error c1)
    (hc2 : env.GetObject 2 s ⟨bucketOf path1, keyOf path1⟩ = .error c2)
    (hc3 : env.GetObject 3 s ⟨bucketOf path1, keyOf path1⟩ = .error e)
    (hd1 : env.PutObject 1 s ⟨bucketOf toPath, uploadKeyOf toPath fromPath, buffer⟩ = some d1)
    (hd2 : env.PutObject 2 s ⟨bucketOf toPath, uploadKeyOf toPath fromPath, buffer⟩ = some d2)
    (hd3 : env.PutObject 3 s ⟨bucketOf toPath, uploadKeyOf toPath fromPath, buffer⟩ = some e) :
    (GetListOfFilesFromS3 env s path1).map (fun r => r.1) = some ([], some e) ∧
    (GetListOfFilesFromS3 env s path2).map (fun r => r.1) = some ([], some e) ∧
    (DownloadFromS3 env s path1).map (fun r => r.1) = some (.returned ([], some e)) ∧
    (UploadToS3 env s toPath fromPath buffer).map (fun r => r.1) = some (some e) := by
  refine ⟨?_, ?_, ?_, ?_⟩
  · rw [GetListOfFilesFromS3_eq, listLoop_fail env s _ _ a1 a2 e ha1 ha2 ha3]
    rfl
  · rw [GetListOfFilesFromS3_eq, listLoop_fail env s _ _ b1 b2 e hb1 hb2 hb3]
    rfl
  · rw [DownloadFromS3_eq, downloadLoop_fail env s _ _ c1 c2 e hc1 hc2 hc3]
    rfl
  · rw [UploadToS3_eq, uploadLoop_fail env s _ _ _ d1 d2 e hd1 hd2 hd3]
    rfl

/-- C10 (amended) at a concrete input: the first two calls of every operation
fail with errors that differ from call to call, from operation to operation
and from bucket to bucket, the third call fails with `boom` everywhere; the
paths `b/x` and `c/y` and the three operations all surface `boom`. -/
theorem surfaced_error_is_the_final_remote_error_witness :
    (GetListOfFilesFromS3 finalBoomEnv ⟨7⟩ "b/x".toList).map (fun r => r.1) =
      some ([], some ⟨"boom".toList⟩) ∧
    (GetListOfFilesFromS3 finalBoomEnv ⟨7⟩ "c/y".toList).map (fun r => r.1) =
      some ([], some ⟨"boom".toList⟩) ∧
    (DownloadFromS3 finalBoomEnv ⟨7⟩ "b/x".toList).map (fun r => r.1) =
      some (.returned ([], some ⟨"boom".toList⟩)) ∧
    (UploadToS3 finalBoomEnv ⟨7⟩ "d".toList "/tmp/f".toList [1]).map (fun r => r.1) =
      some (some ⟨"boom".toList⟩) :=
  surfaced_error_is_the_final_remote_error finalBoomEnv ⟨7⟩ "b/x".toList "c/y".toList
    "d".toList "/tmp/f".toList [1]
    ⟨"l1b".toList⟩ ⟨"l2b".toList⟩ ⟨"l1c".toList⟩ ⟨"l2c".toList⟩
    ⟨"g1b".toList⟩ ⟨"g2b".toList⟩ ⟨"u1d".toList⟩ ⟨"u2d".toList⟩ ⟨"boom".toList⟩
    rfl rfl rfl rfl rfl rfl rfl rfl rfl rfl rfl rfl

end Skbn
